import Mathlib

/-!
A shallow embedding of `nussl.js` (v0.2.0): the `ElementWatcher` existence
engine and the `ElementManager` fluent builder, with theorems checking the
natural-language specification against the code.

The DOM query/mutation primitives are external collaborators of the library
(the spec's §6 boundary), so the manager's operations are parametrised over a
`DomApi` record of those primitives; a concrete instance `logApi` records the
primitive invocations in an effect log and implements attribute/property
storage with real association-list semantics, so that concrete runs can be
evaluated.  JavaScript strings are modelled as Lean `String`s, with
JS `startsWith` / `endsWith` / `includes` / one-shot `replace` re-implemented
over `List Char` so that they evaluate in the kernel.
-/

/-- JS `String.prototype.startsWith`. -/
def jsStartsWith (s pre : String) : Bool := pre.data.isPrefixOf s.data

/-- JS `String.prototype.endsWith`. -/
def jsEndsWith (s post : String) : Bool := post.data.isSuffixOf s.data

/-- Substring search on character lists (JS `String.prototype.includes`). -/
def includesL : List Char → List Char → Bool
  | l, pat =>
    if pat.isPrefixOf l then true
    else match l with
      | [] => false
      | _ :: rest => includesL rest pat

/-- JS `String.prototype.includes`. -/
def jsIncludes (s pat : String) : Bool := includesL s.data pat.data

/-- Replace the first occurrence of `pat` in `l` by `repl`
    (JS `String.prototype.replace` with a non-global literal regex). -/
def replaceFirstL (l pat repl : List Char) : List Char :=
  match l with
  | [] => if pat.isEmpty then repl else []
  | c :: rest =>
    if pat.isPrefixOf (c :: rest) then repl ++ (c :: rest).drop pat.length
    else c :: replaceFirstL rest pat repl

/-- JS `String.prototype.replace` (first occurrence, literal pattern). -/
def jsReplaceFirst (s pat repl : String) : String := ⟨replaceFirstL s.data pat.data repl.data⟩

/-- The lazy-group tail of the key regex: match `(?<val>.+?)(?:__\$)?$` on `s`,
    returning the `val` group.  The lazy `.+?` takes the least number of
    characters, so when `s` ends in `__$` and has something before it, `val` is
    `s` minus that suffix; otherwise `val` is all of `s` (which must be
    non-empty). -/
def keyMatchTail (s : List Char) : Option (List Char) :=
  if s.length > 3 && (['_', '_', '$'].isSuffixOf s) then some (s.take (s.length - 3))
  else if s.length ≥ 1 then some s
  else none

/-- `getKey` from `ElementManager.set`:
    `givenKey.match(/^(?:\$__)?(?<val>.+?)(?:__\$)?$/)?.groups?.val ?? givenKey`.
    The leading optional group is greedy, so a `$__` prefix is consumed first
    and only given back (backtracking) if nothing would remain for `val`. -/
def getKey (givenKey : String) : String :=
  let k := givenKey.data
  let r :=
    if ['$', '_', '_'].isPrefixOf k then
      match keyMatchTail (k.drop 3) with
      | some v => some v
      | none => keyMatchTail k
    else keyMatchTail k
  ⟨r.getD k⟩

/-- The external DOM primitives consumed by nussl (spec §6): selector queries,
    element creation, attribute/property access, structural mutation, events.
    `D` is the document state, `E` the element (node reference) type.  Node
    arguments of `append` / `replaceWith` are `Option E` because JS converts a
    `null` argument of these (Node-or-DOMString) primitives to the string
    `"null"` and inserts a text node; an `Option E` ref of `insertBefore`
    means "insert at end" as in the DOM. -/
structure DomApi (D E : Type) where
  querySelector : D → String → Option E
  createElement : String → E
  getAttribute : D → E → String → Option String
  setAttribute : D → E → String → String → D
  getProperty : D → E → String → Option String
  setProperty : D → E → String → String → D
  isConnected : D → E → Bool
  body : E
  previousElementSibling : D → E → Option E
  nextElementSibling : D → E → Option E
  parentNode : D → E → Option E
  nextSibling : D → E → Option E
  append : D → E → Option E → D
  appendChild : D → E → E → D
  insertBefore : D → E → E → Option E → D
  replaceWith : D → E → Option E → D
  removeElem : D → E → D
  addEventListener : D → E → String → D
  dispatchEvent : D → E → String → D

/-- The JS failure mode of the manager: a member access on `null`
    (`TypeError`). -/
inductive JsError where
  | nullDeref
deriving DecidableEq, Repr

/-- The `ElementManager` instance fields (its constructor state). -/
structure ManagerState (E : Type) where
  element : Option E := none
  found : Bool := false
  bypass : Bool := false
  replaced : Option E := none
deriving DecidableEq, Repr

/-- A value of the `content` argument of `set`: either a plain (string) value
    or an updater function receiving the current property value. -/
inductive ContentV where
  | str (s : String)
  | fn (f : Option String → String)

/-- The `parentOrSelector` argument of `ElementManager.on`: a selector string,
    a direct `HTMLElement` reference, or anything else (which resolves to
    `document.body`). -/
inductive ParentArg (E : Type) where
  | sel (s : String)
  | elemRef (e : E)
  | other

namespace ElementManager

variable {D E : Type}

/-- `find(selector)`: `this.element = document.querySelector(selector); if
    (this.element) this.found = true;`. -/
def find (api : DomApi D E) (d : D) (st : ManagerState E) (selector : String) :
    Except JsError (ManagerState E × D) :=
  let q := api.querySelector d selector
  .ok ({ st with element := q, found := if q.isSome then true else st.found }, d)

/-- `create(tag)`: bypass-guarded; `this.element = document.createElement(tag)`. -/
def create (api : DomApi D E) (d : D) (st : ManagerState E) (tag : String) :
    Except JsError (ManagerState E × D) :=
  if st.bypass then .ok (st, d)
  else .ok ({ st with element := some (api.createElement tag) }, d)

/-- `replace(selector)`: `this.replaced = document.querySelector(selector)`
    (no bypass check in the source). -/
def replace (api : DomApi D E) (d : D) (st : ManagerState E) (selector : String) :
    Except JsError (ManagerState E × D) :=
  .ok ({ st with replaced := api.querySelector d selector }, d)

/-- `use(element)`: adopt a caller-supplied (possibly null) element reference. -/
def use (d : D) (st : ManagerState E) (element : Option E) :
    Except JsError (ManagerState E × D) :=
  .ok ({ st with element := element }, d)

/-- `or()`: `this.bypass = this.found`. -/
def or (d : D) (st : ManagerState E) : Except JsError (ManagerState E × D) :=
  .ok ({ st with bypass := st.found }, d)

/-- `then()`: `this.bypass = false`. -/
def thenOp (d : D) (st : ManagerState E) : Except JsError (ManagerState E × D) :=
  .ok ({ st with bypass := false }, d)

/-- `on(parentOrSelector)`: bypass-guarded; if `!this.element?.isConnected`,
    resolve the parent (selector / element / `document.body`) and
    `?.append(this.element)`.  A null `this.element` is passed through to
    `append`, which inserts the text `"null"`. -/
def onOp (api : DomApi D E) (d : D) (st : ManagerState E) (parentOrSelector : ParentArg E) :
    Except JsError (ManagerState E × D) :=
  if st.bypass then .ok (st, d)
  else
    let connected := match st.element with
      | none => false
      | some e => api.isConnected d e
    if connected then .ok (st, d)
    else
      let parent : Option E := match parentOrSelector with
        | .sel s => api.querySelector d s
        | .elemRef e => some e
        | .other => some api.body
      match parent with
      | none => .ok (st, d)
      | some pe => .ok (st, api.append d pe st.element)

/-- The attribute loop of `set`.  For each key: `old =
    this.element?.getAttribute(key)` (optional access), then an unguarded
    `this.element.setAttribute(...)`, which throws when the element is null.
    The `$__` (prepend) branch writes `(nu + old ?? "")`, which by JS operator
    precedence is `(nu + old) ?? ""`: when the attribute is absent (`old` is
    `null`) string concatenation coerces `null` to `"null"`, and the `?? ""`
    never applies. -/
def setAttrsLoop (api : DomApi D E) (element : Option E) :
    List (String × String) → D → Except JsError D
  | [], d => .ok d
  | (givenKey, nu) :: rest, d =>
    let key := getKey givenKey
    let old : Option String := match element with
      | none => none
      | some e => api.getAttribute d e key
    match element with
    | none => .error .nullDeref
    | some e =>
      let d' :=
        if jsEndsWith givenKey "__$" then api.setAttribute d e key (old.getD "" ++ nu)
        else if jsStartsWith givenKey "$__" then
          api.setAttribute d e key (nu ++ (match old with | some o => o | none => "null"))
        else api.setAttribute d e key nu
      setAttrsLoop api element rest d'

/-- The content (property) loop of `set`: an unguarded
    `this.element[key] = fun(this.element[key])`, where `fun` is the given
    updater, or the prepend/append/overwrite merge of a plain value (here the
    nullish coalescing is correctly parenthesised in the source). -/
def setContentLoop (api : DomApi D E) (element : Option E) :
    List (String × ContentV) → D → Except JsError D
  | [], d => .ok d
  | (givenKey, v) :: rest, d =>
    let key := getKey givenKey
    match element with
    | none => .error .nullDeref
    | some e =>
      let old := api.getProperty d e key
      let newVal := match v with
        | .fn f => f old
        | .str s =>
          if jsEndsWith givenKey "__$" then old.getD "" ++ s
          else if jsStartsWith givenKey "$__" then s ++ old.getD ""
          else s
      setContentLoop api element rest (api.setProperty d e key newVal)

/-- `set(attributes, content)`: bypass-guarded; attribute loop then content
    loop.  (The JS arguments default to `{}`; the lists model the key/value
    pairs of non-null argument objects in insertion order.) -/
def set (api : DomApi D E) (d : D) (st : ManagerState E)
    (attributes : List (String × String)) (content : List (String × ContentV) := []) :
    Except JsError (ManagerState E × D) :=
  if st.bypass then .ok (st, d)
  else
    match setAttrsLoop api st.element attributes d with
    | .error e => .error e
    | .ok d1 =>
      match setContentLoop api st.element content d1 with
      | .error e => .error e
      | .ok d2 => .ok (st, d2)

/-- `with(elementManager)`: `this.replaced?.replaceWith(elementManager.element);
    return elementManager;` — no bypass check, and the OTHER manager is
    returned as the continuation of the chain. -/
def withOp (api : DomApi D E) (d : D) (st : ManagerState E) (em : ManagerState E) :
    Except JsError (ManagerState E × D) :=
  let d' := match st.replaced with
    | none => d
    | some r => api.replaceWith d r em.element
  .ok (em, d')

/-- The `up`/`down` sibling loop of `move`: each iteration reads
    `this.element.previousElementSibling` (or next), which throws on a null
    element; breaks when no sibling remains; otherwise
    `this.element.parentNode.insertBefore(element, sibling)` (arguments
    reversed for `down`). -/
def upDownLoop (api : DomApi D E) (up : Bool) (element : Option E) :
    Nat → D → Except JsError D
  | 0, d => .ok d
  | amount + 1, d =>
    match element with
    | none => .error .nullDeref
    | some e =>
      let sibling := if up then api.previousElementSibling d e
        else api.nextElementSibling d e
      match sibling with
      | none => .ok d
      | some sib =>
        match api.parentNode d e with
        | none => .error .nullDeref
        | some p =>
          let d' := if up then api.insertBefore d p e (some sib)
            else api.insertBefore d p sib (some e)
          upDownLoop api up element amount d'

end ElementManager

namespace ElementManager

variable {D E : Type}

/-- The loop of `out(amount)`: while `amount > 0 && this.element.parentNode &&
    this.element.parentNode !== document.body` (the first read throws on a null
    element), insert the element after its parent when a grandparent exists;
    `amount` decreases every iteration. -/
def outLoop (api : DomApi D E) [DecidableEq E] (element : Option E) :
    Nat → D → Except JsError D
  | 0, d => .ok d
  | amount + 1, d =>
    match element with
    | none => .error .nullDeref
    | some e =>
      match api.parentNode d e with
      | none => .ok d
      | some p =>
        if p = api.body then .ok d
        else
          let d' := match api.parentNode d p with
            | none => d
            | some gp => api.insertBefore d gp e (api.nextSibling d p)
          outLoop api element amount d'

/-- `out(amount = 1)`: bypass-guarded un-nesting loop. -/
def out (api : DomApi D E) [DecidableEq E] (d : D) (st : ManagerState E)
    (amount : Nat := 1) : Except JsError (ManagerState E × D) :=
  if st.bypass then .ok (st, d)
  else (outLoop api st.element amount d).map (fun d' => (st, d'))

/-- The loop of `in(amount)`: read `this.element.previousElementSibling`
    (throws on a null element), break when absent, else
    `previousSibling.appendChild(this.element)`. -/
def inLoop (api : DomApi D E) (element : Option E) : Nat → D → Except JsError D
  | 0, d => .ok d
  | amount + 1, d =>
    match element with
    | none => .error .nullDeref
    | some e =>
      match api.previousElementSibling d e with
      | none => .ok d
      | some prev => inLoop api element amount (api.appendChild d prev e)

/-- `in(amount = 1)`: bypass-guarded nesting loop. -/
def inOp (api : DomApi D E) (d : D) (st : ManagerState E) (amount : Nat := 1) :
    Except JsError (ManagerState E × D) :=
  if st.bypass then .ok (st, d)
  else (inLoop api st.element amount d).map (fun d' => (st, d'))

/-- `move(directionOrSelector = "body", amount = 1)`: bypass-guarded; `"in"` /
    `"out"` delegate to those methods, `"up"` / `"down"` run the sibling loop,
    any other string is a selector whose first match (if any) gets the element
    appended (`document.querySelector(dir)?.append(this.element)`). -/
def move (api : DomApi D E) [DecidableEq E] (d : D) (st : ManagerState E)
    (directionOrSelector : String := "body") (amount : Nat := 1) :
    Except JsError (ManagerState E × D) :=
  if st.bypass then .ok (st, d)
  else if directionOrSelector = "in" then inOp api d st amount
  else if directionOrSelector = "out" then out api d st amount
  else if directionOrSelector = "up" ∨ directionOrSelector = "down" then
    (upDownLoop api (directionOrSelector = "up") st.element amount d).map (fun d' => (st, d'))
  else
    match api.querySelector d directionOrSelector with
    | none => .ok (st, d)
    | some p => .ok (st, api.append d p st.element)

/-- `up(amount = 1)`: `return this.move("up", amount)`. -/
def up (api : DomApi D E) [DecidableEq E] (d : D) (st : ManagerState E)
    (amount : Nat := 1) : Except JsError (ManagerState E × D) :=
  move api d st "up" amount

/-- `down(amount = 1)`: `return this.move("down", amount)`. -/
def down (api : DomApi D E) [DecidableEq E] (d : D) (st : ManagerState E)
    (amount : Nat := 1) : Except JsError (ManagerState E × D) :=
  move api d st "down" amount

/-- The style marker appended by `hide` (the `hiddenStyle` constant of the
    source, also repeated literally in its `set` call). -/
def hiddenStyle : String := ";/*hide--*/;display:none !important;/*--hide*/;"

/-- The literal text of the removal regex of `hide(false)`:
    `/\/\*hide--\*\/;display:none !important;\/\*--hide\*\//` — note it lacks
    the leading and trailing `;` of `hiddenStyle`. -/
def hiddenStyleInner : String := "/*hide--*/;display:none !important;/*--hide*/"

/-- `hide(hidden = true)`: bypass-guarded; reads
    `this.element?.getAttribute("style") ?? ""`; hiding appends the marker via
    `set({ style__$: ... })` when not present; un-hiding overwrites the style
    with the first-occurrence replacement of the (semicolon-less) inner marker
    by `""`; otherwise a no-op. -/
def hide (api : DomApi D E) (d : D) (st : ManagerState E) (hidden : Bool := true) :
    Except JsError (ManagerState E × D) :=
  if st.bypass then .ok (st, d)
  else
    let style := (match st.element with
      | none => none
      | some e => api.getAttribute d e "style").getD ""
    if hidden && !(jsIncludes style hiddenStyle) then
      set api d st [("style__$", hiddenStyle)] []
    else if !hidden && jsIncludes style hiddenStyle then
      set api d st [("style", jsReplaceFirst style hiddenStyleInner "")] []
    else .ok (st, d)

/-- `remove()`: bypass-guarded; `this.element?.remove()`. -/
def remove (api : DomApi D E) (d : D) (st : ManagerState E) :
    Except JsError (ManagerState E × D) :=
  if st.bypass then .ok (st, d)
  else match st.element with
    | none => .ok (st, d)
    | some e => .ok (st, api.removeElem d e)

/-- `listen(event, callback)`: bypass-guarded;
    `this.element?.addEventListener(event, callback)`. -/
def listen (api : DomApi D E) (d : D) (st : ManagerState E) (event : String) :
    Except JsError (ManagerState E × D) :=
  if st.bypass then .ok (st, d)
  else match st.element with
    | none => .ok (st, d)
    | some e => .ok (st, api.addEventListener d e event)

/-- `trigger(event)`: bypass-guarded;
    `this.element?.dispatchEvent(new Event(event))`. -/
def trigger (api : DomApi D E) (d : D) (st : ManagerState E) (event : String) :
    Except JsError (ManagerState E × D) :=
  if st.bypass then .ok (st, d)
  else match st.element with
    | none => .ok (st, d)
    | some e => .ok (st, api.dispatchEvent d e event)

end ElementManager

/-- The chain `find(selector).or().create(tag)` started from the static
    `find` entry point (a fresh manager). -/
def chainFindOrCreate {D E : Type} (api : DomApi D E) (d : D) (selector tag : String) :
    Except JsError (ManagerState E × D) :=
  match ElementManager.find api d {} selector with
  | .error e => .error e
  | .ok (st1, d1) =>
    match ElementManager.or d1 st1 with
    | .error e => .error e
    | .ok (st2, d2) => ElementManager.create api d2 st2 tag

/-- A structural DOM mutation or event primitive invocation, recorded by the
    concrete `logApi` instance.  A `none` node argument is JS `null` (inserted
    as the text `"null"` by `append`/`replaceWith`). -/
inductive DomEffect where
  | append (parent : Nat) (child : Option Nat)
  | appendChild (parent : Nat) (child : Nat)
  | insertBefore (parent : Nat) (node : Nat) (ref : Option Nat)
  | replaceWith (oldNode : Nat) (newNode : Option Nat)
  | removeNode (node : Nat)
  | listenerAdded (node : Nat) (event : String)
  | eventDispatched (node : Nat) (event : String)
deriving DecidableEq, Repr

/-- Association-list read keyed by (element id, name). -/
def assocGet (m : List ((Nat × String) × String)) (k : Nat × String) : Option String :=
  (m.find? (fun p => p.1 == k)).map (·.2)

/-- Association-list overwrite keyed by (element id, name). -/
def assocSet (m : List ((Nat × String) × String)) (k : Nat × String) (v : String) :
    List ((Nat × String) × String) :=
  (k, v) :: m.filter (fun p => p.1 != k)

/-- A concrete document state for evaluating the manager: elements are `Nat`
    ids; attributes and properties are stored in association lists; selector
    resolution and structural facts (connectivity, siblings, parents) are
    given as finite tables; structural mutations and event primitives are
    recorded in `effects` (the primitives themselves are external to the
    library, so this instance observes the calls the manager makes). -/
structure LogDom where
  attrs : List ((Nat × String) × String) := []
  props : List ((Nat × String) × String) := []
  sels : List (String × Nat) := []
  connectedIds : List Nat := []
  prevSibs : List (Nat × Nat) := []
  nextSibs : List (Nat × Nat) := []
  parents : List (Nat × Nat) := []
  effects : List DomEffect := []
deriving DecidableEq, Repr

/-- The `DomApi` instance over `LogDom`: element `0`..`n` ids,
    `document.body` is id `1`, `createElement` yields the detached id `1000`. -/
def logApi : DomApi LogDom Nat where
  querySelector d s := d.sels.lookup s
  createElement _ := 1000
  getAttribute d e k := assocGet d.attrs (e, k)
  setAttribute d e k v := { d with attrs := assocSet d.attrs (e, k) v }
  getProperty d e k := assocGet d.props (e, k)
  setProperty d e k v := { d with props := assocSet d.props (e, k) v }
  isConnected d e := d.connectedIds.contains e
  body := 1
  previousElementSibling d e := d.prevSibs.lookup e
  nextElementSibling d e := d.nextSibs.lookup e
  parentNode d e := d.parents.lookup e
  nextSibling d e := d.nextSibs.lookup e
  append d p c := { d with effects := d.effects ++ [.append p c] }
  appendChild d p c := { d with effects := d.effects ++ [.appendChild p c] }
  insertBefore d p n r := { d with effects := d.effects ++ [.insertBefore p n r] }
  replaceWith d o n := { d with effects := d.effects ++ [.replaceWith o n] }
  removeElem d e := { d with effects := d.effects ++ [.removeNode e] }
  addEventListener d e ev := { d with effects := d.effects ++ [.listenerAdded e ev] }
  dispatchEvent d e ev := { d with effects := d.effects ++ [.eventDispatched e ev] }

/-- The `ElementWatcher` instance fields relevant to existence mode.  The
    JS instance properties `once` / `until` / `unless` / `requireAll` /
    `requireAny` are absent (falsy) until a constructor or `all()` / `any()`
    sets them; `hasCallback` models `typeof this.callback === 'function'`
    after `exists(cb)`. -/
structure ElementWatcher where
  selectors : List String := []
  onceFlag : Bool := false
  untilFlag : Bool := false
  unlessFlag : Bool := false
  requireAll : Bool := false
  requireAny : Bool := false
  hasCallback : Bool := false
deriving DecidableEq, Repr

namespace ElementWatcher

/-- `ElementWatcher.always()`. -/
def always : ElementWatcher := {}

/-- `ElementWatcher.once()`. -/
def once : ElementWatcher := { onceFlag := true }

/-- `ElementWatcher.until()`. -/
def untilW : ElementWatcher := { untilFlag := true }

/-- `ElementWatcher.unless()`. -/
def unlessW : ElementWatcher := { unlessFlag := true }

/-- `all(...selectors)`: sets the selector list and `requireAll = true`. -/
def all (w : ElementWatcher) (selectors : List String) : ElementWatcher :=
  { w with selectors := selectors, requireAll := true }

/-- `any(...selectors)`: sets the selector list and `requireAny = true`. -/
def any (w : ElementWatcher) (selectors : List String) : ElementWatcher :=
  { w with selectors := selectors, requireAny := true }

/-- `when(...selectors)`: sets the selector list. -/
def when (w : ElementWatcher) (selectors : List String) : ElementWatcher :=
  { w with selectors := selectors }

/-- `exists(callback)`: installs the existence callback (it then triggers a
    `processElements(true)` pass, modelled by `existenceRun`). -/
def existsCb (w : ElementWatcher) : ElementWatcher :=
  { w with hasCallback := true }

end ElementWatcher

/-- One existence-mode evaluation of `evaluateElements` against a document
    snapshot `q` (`document.querySelectorAll` per selector): says whether the
    existence callback is invoked on this pass.  Mirrors the source: element
    groups per selector, flattened union, count of selectors with ≥ 1 match,
    then the `requireAll` / `requireAny` / `unless` conditional chain, each
    firing only if the callback is a function. -/
def existenceFires (w : ElementWatcher) (q : String → List Nat) : Bool :=
  let elementGroups := w.selectors.map q
  let flattenedElements := elementGroups.flatten
  let foundSelectorsCount := (elementGroups.filter (fun g => decide (0 < g.length))).length
  if w.requireAll && foundSelectorsCount == w.selectors.length then w.hasCallback
  else if w.requireAny && decide (0 < flattenedElements.length) then w.hasCallback
  else if w.unlessFlag && flattenedElements.length == 0 then w.hasCallback
  else false

/-- The state of the mutation-observer subscription created by one
    `processElements(true)` call: whether it is still connected, and how many
    times the existence callback has been invoked. -/
structure ObserverState where
  connected : Bool
  fires : Nat
deriving DecidableEq, Repr

/-- One mutation notification (`observerCallback` for existence mode): while
    connected, re-evaluate against the new document snapshot, then — `if
    (this.once && forExistence)` — disconnect, regardless of whether the
    quorum was satisfied. -/
def observerStep (w : ElementWatcher) (s : ObserverState) (q : String → List Nat) :
    ObserverState :=
  if s.connected then
    { connected := !w.onceFlag,
      fires := s.fires + (if existenceFires w q then 1 else 0) }
  else s

/-- A whole existence-mode run of `processElements(true)`: the observer is
    registered, the immediate synchronous pass evaluates against `q0` (it
    never disconnects anything), and then each document mutation in `muts`
    triggers `observerStep`. -/
def existenceRun (w : ElementWatcher) (q0 : String → List Nat)
    (muts : List (String → List Nat)) : ObserverState :=
  muts.foldl (observerStep w)
    { connected := true, fires := if existenceFires w q0 then 1 else 0 }

/-- Concrete once-mode watcher configured as `once().any("button").exists(cb)`. -/
def onceAnyButton : ElementWatcher :=
  ((ElementWatcher.once).any ["button"]).existsCb

/-- A document snapshot in which no selector matches. -/
def qEmpty : String → List Nat := fun _ => []

/-- A document snapshot in which `"button"` matches element 7. -/
def qButton : String → List Nat := fun s => if s = "button" then [7] else []

/-- A filter keeps the whole list exactly when every entry satisfies the
    predicate. -/
theorem length_filter_eq_length_iff {α : Type} {p : α → Bool} {l : List α} :
    (l.filter p).length = l.length ↔ ∀ a ∈ l, p a = true := by
  induction l with
  | nil => simp
  | cons a t ih =>
    have hle := List.length_filter_le p t
    by_cases hpa : p a = true
    · simp only [List.filter_cons, hpa, if_true, List.length_cons]
      constructor
      · intro h b hb
        rcases List.mem_cons.mp hb with rfl | hb
        · exact hpa
        · exact ih.mp (by omega) b hb
      · intro h
        have h2 := ih.mpr (fun b hb => h b (List.mem_cons_of_mem _ hb))
        omega
    · rw [List.filter_cons, if_neg (by simp [hpa])]
      simp only [List.length_cons]
      constructor
      · intro h
        exfalso
        omega
      · intro h
        exact absurd (h a (List.mem_cons_self a t)) hpa

/-- Once the observer subscription is disconnected, later mutation
    notifications change nothing. -/
theorem foldl_observerStep_disconnected (w : ElementWatcher) :
    ∀ (l : List (String → List Nat)) (s : ObserverState), s.connected = false →
      l.foldl (observerStep w) s = s := by
  intro l
  induction l with
  | nil => intro s _; rfl
  | cons q t ih =>
    intro s h
    rw [List.foldl_cons]
    have hstep : observerStep w s q = s := by simp [observerStep, h]
    rw [hstep]
    exact ih s h

/-- C5: with a non-empty selector list configured via `all()` (and no other
    quorum flag set) and an installed callback, an existence-mode evaluation
    pass invokes the existence callback iff every selector has at least one
    match in the document snapshot of that pass — so the callback never fires
    on a pass where some selector is unmatched. -/
theorem claim_C5_all_quorum_iff (w : ElementWatcher) (q : String → List Nat)
    (hall : w.requireAll = true) (hany : w.requireAny = false)
    (hunl : w.unlessFlag = false) (hcb : w.hasCallback = true)
    (hne : w.selectors ≠ []) :
    existenceFires w q = true ↔ ∀ s ∈ w.selectors, q s ≠ [] := by
  have key : (((w.selectors.map q).filter (fun g => decide (0 < g.length))).length
      = (w.selectors.map q).length) ↔ ∀ s ∈ w.selectors, q s ≠ [] := by
    rw [length_filter_eq_length_iff]
    constructor
    · intro h s hs
      have := h (q s) (List.mem_map_of_mem q hs)
      rw [decide_eq_true_iff] at this
      exact List.length_pos.mp this
    · intro h g hg
      obtain ⟨s, hs, rfl⟩ := List.mem_map.mp hg
      rw [decide_eq_true_iff]
      exact List.length_pos.mpr (h s hs)
  simp only [existenceFires, hall, hany, hunl, hcb, Bool.true_and, Bool.false_and,
    Bool.false_eq_true, if_false, List.length_map] at *
  cases hc : ((w.selectors.map q).filter (fun g => decide (0 < g.length))).length
      == w.selectors.length
  · constructor
    · intro h
      simp at h
    · intro h
      exact absurd (key.mpr h) (beq_eq_false_iff_ne.mp hc)
  · constructor
    · intro _
      exact key.mp (beq_iff_eq.mp hc)
    · intro _
      simp

/-- Closed instantiation of C5: `all(["button"])` with an installed callback,
    evaluated against a snapshot where the selector matches. -/
theorem claim_C5_witness :
    existenceFires ((ElementWatcher.always.all ["button"]).existsCb) qButton = true ↔
      ∀ s ∈ ((ElementWatcher.always.all ["button"]).existsCb).selectors, qButton s ≠ [] :=
  claim_C5_all_quorum_iff ((ElementWatcher.always.all ["button"]).existsCb) qButton
    rfl rfl rfl rfl (by decide)

/-- C6: a `once()` existence watcher (quorum via `all`/`any`, not `unless`)
    whose selectors have no match at subscription time: the synchronous pass
    does not fire and does not tear anything down; the first mutation-triggered
    pass — here one whose snapshot satisfies the quorum — fires the callback,
    and the subscription is then disconnected, so the callback fires exactly
    once no matter what later mutations bring. -/
theorem claim_C6_once_exists_fires_once (w : ElementWatcher)
    (q0 q1 : String → List Nat) (rest : List (String → List Nat))
    (honce : w.onceFlag = true) (hunl : w.unlessFlag = false)
    (hne : w.selectors ≠ []) (hq0 : ∀ s ∈ w.selectors, q0 s = [])
    (h1 : existenceFires w q1 = true) :
    (existenceRun w q0 (q1 :: rest)).fires = 1 ∧
    (existenceRun w q0 (q1 :: rest)).connected = false := by
  have hgroups : ∀ g ∈ w.selectors.map q0, g = [] := by
    intro g hg
    obtain ⟨s, hs, rfl⟩ := List.mem_map.mp hg
    exact hq0 s hs
  have hfilter : (w.selectors.map q0).filter (fun g => decide (0 < g.length)) = [] := by
    rw [List.filter_eq_nil_iff]
    intro g hg
    simp [hgroups g hg]
  have hflat : (w.selectors.map q0).flatten = [] := by
    rw [List.flatten_eq_nil_iff]
    exact hgroups
  have hlen : ((0 : Nat) == w.selectors.length) = false := by
    refine beq_eq_false_iff_ne.mpr ?_
    have := List.length_pos.mpr hne
    omega
  have h0 : existenceFires w q0 = false := by
    simp only [existenceFires, hfilter, hflat, hunl, List.length_nil, hlen,
      Bool.and_false, Bool.false_and, Bool.false_eq_true, if_false]
    simp
  have hstep : observerStep w { connected := true, fires := 0 } q1 =
      { connected := false, fires := 1 } := by
    simp [observerStep, honce, h1]
  have hrun : existenceRun w q0 (q1 :: rest) = { connected := false, fires := 1 } := by
    rw [existenceRun, h0]
    simp only [if_false, Bool.false_eq_true]
    rw [List.foldl_cons, hstep]
    exact foldl_observerStep_disconnected w rest _ rfl
  rw [hrun]
  exact ⟨rfl, rfl⟩

/-- Closed instantiation of C6: `once().any("button").exists(cb)` with no
    initial match; the first mutation inserts a match, a second mutation
    follows — the callback fires exactly once and the subscription ends
    disconnected. -/
theorem claim_C6_witness :
    (existenceRun onceAnyButton qEmpty [qButton, qButton]).fires = 1 ∧
    (existenceRun onceAnyButton qEmpty [qButton, qButton]).connected = false :=
  claim_C6_once_exists_fires_once onceAnyButton qEmpty qButton [qButton]
    rfl rfl (by decide) (fun s _ => rfl) (by decide)

/-- C10: in once+existence mode the subscription is disconnected after the
    first mutation-triggered pass regardless of quorum or callback firing
    (first conjunct); consequently there is a run — first observed mutation
    unrelated to the selectors, matching element only inserted afterwards —
    in which a later snapshot would satisfy the quorum (second conjunct) yet
    the existence callback never fires at all (third conjunct). -/
theorem claim_C10_once_disconnect :
    (∀ (w : ElementWatcher) (q0 q : String → List Nat) (rest : List (String → List Nat)),
      w.onceFlag = true → (existenceRun w q0 (q :: rest)).connected = false) ∧
    existenceFires onceAnyButton qButton = true ∧
    (existenceRun onceAnyButton qEmpty [qEmpty, qButton]).fires = 0 := by
  refine ⟨?_, by decide, by decide⟩
  intro w q0 q rest honce
  rw [existenceRun, List.foldl_cons]
  have hstep : ∀ s : ObserverState, s.connected = true → (observerStep w s q).connected = false := by
    intro s hs
    simp [observerStep, hs, honce]
  rw [foldl_observerStep_disconnected w rest _ (hstep _ rfl)]
  exact hstep _ rfl

/-- Closed instantiation of the universal part of C10. -/
theorem claim_C10_witness :
    (existenceRun onceAnyButton qEmpty [qEmpty]).connected = false :=
  claim_C10_once_disconnect.1 onceAnyButton qEmpty qEmpty [] rfl

/-- C7: `find(selector).or().create(tag)` — when the selector matches an
    existing node, `or()` sets bypass (since `found` is true) and `create` is
    skipped, so the found node remains the working element; when there is no
    match, bypass stays false and `create` makes a new element of the given
    tag the working element. -/
theorem claim_C7_find_or_create {D E : Type} (api : DomApi D E) (d : D) (selector tag : String) :
    (∀ e, api.querySelector d selector = some e →
      chainFindOrCreate api d selector tag =
        .ok ({ element := some e, found := true, bypass := true, replaced := none }, d)) ∧
    (api.querySelector d selector = none →
      chainFindOrCreate api d selector tag =
        .ok ({ element := some (api.createElement tag), found := false, bypass := false,
               replaced := none }, d)) := by
  constructor
  · intro e he
    simp [chainFindOrCreate, ElementManager.find, ElementManager.or, ElementManager.create, he]
  · intro he
    simp [chainFindOrCreate, ElementManager.find, ElementManager.or, ElementManager.create, he]

/-- Closed instantiation of C7 over the concrete document `{"a" ↦ 3}`:
    `find("a").or().create("div")` keeps node 3; `find("b").or().create("div")`
    creates a fresh element. -/
theorem claim_C7_witness :
    chainFindOrCreate logApi { sels := [("a", 3)] } "a" "div" =
      .ok ({ element := some 3, found := true, bypass := true, replaced := none },
           { sels := [("a", 3)] }) ∧
    chainFindOrCreate logApi { sels := [("a", 3)] } "b" "div" =
      .ok ({ element := some 1000, found := false, bypass := false, replaced := none },
           { sels := [("a", 3)] }) :=
  ⟨(claim_C7_find_or_create logApi { sels := [("a", 3)] } "a" "div").1 3 rfl,
   (claim_C7_find_or_create logApi { sels := [("a", 3)] } "b" "div").2 rfl⟩

/-- C1 fails as stated: on a bypassed manager with a recorded `replaced` node,
    `with` still performs the replacement in the document (the effect log
    grows) and returns the other manager, not the same builder. -/
theorem claim_C1_counterexample :
    ElementManager.withOp logApi {} { bypass := true, replaced := some 5 }
        ({ element := some 7 } : ManagerState Nat) =
      .ok ({ element := some 7 }, { effects := [.replaceWith 5 (some 7)] }) ∧
    ({ element := some 7 } : ManagerState Nat) ≠ { bypass := true, replaced := some 5 } ∧
    ({ effects := [.replaceWith 5 (some 7)] } : LogDom) ≠ {} := by
  refine ⟨rfl, by decide, by decide⟩

/-- C1 amended: with `bypass` set, each of `create`, `on`, `set`, `move`,
    `up`, `down`, `in`, `out`, `hide`, `remove`, `listen` and `trigger` is a
    no-op returning the same builder and leaving the document unchanged — but
    `with` is the exception: it ignores `bypass`, performs the recorded
    replacement (when any) and returns the other manager. -/
theorem claim_C1_bypass_noop_amended {D E : Type} [DecidableEq E] (api : DomApi D E) (d : D)
    (st : ManagerState E) (h : st.bypass = true) :
    (∀ tag, ElementManager.create api d st tag = .ok (st, d)) ∧
    (∀ p, ElementManager.onOp api d st p = .ok (st, d)) ∧
    (∀ attrs content, ElementManager.set api d st attrs content = .ok (st, d)) ∧
    (∀ dir amt, ElementManager.move api d st dir amt = .ok (st, d)) ∧
    (∀ amt, ElementManager.up api d st amt = .ok (st, d)) ∧
    (∀ amt, ElementManager.down api d st amt = .ok (st, d)) ∧
    (∀ amt, ElementManager.inOp api d st amt = .ok (st, d)) ∧
    (∀ amt, ElementManager.out api d st amt = .ok (st, d)) ∧
    (∀ hidden, ElementManager.hide api d st hidden = .ok (st, d)) ∧
    ElementManager.remove api d st = .ok (st, d) ∧
    (∀ ev, ElementManager.listen api d st ev = .ok (st, d)) ∧
    (∀ ev, ElementManager.trigger api d st ev = .ok (st, d)) ∧
    (∀ em, ElementManager.withOp api d st em =
      .ok (em, match st.replaced with
        | none => d
        | some r => api.replaceWith d r em.element)) := by
  refine ⟨?_, ?_, ?_, ?_, ?_, ?_, ?_, ?_, ?_, ?_, ?_, ?_, ?_⟩
  · intro tag; simp [ElementManager.create, h]
  · intro p; simp [ElementManager.onOp, h]
  · intro attrs content; simp [ElementManager.set, h]
  · intro dir amt; simp [ElementManager.move, h]
  · intro amt; simp [ElementManager.up, ElementManager.move, h]
  · intro amt; simp [ElementManager.down, ElementManager.move, h]
  · intro amt; simp [ElementManager.inOp, h]
  · intro amt; simp [ElementManager.out, h]
  · intro hidden; simp [ElementManager.hide, h]
  · simp [ElementManager.remove, h]
  · intro ev; simp [ElementManager.listen, h]
  · intro ev; simp [ElementManager.trigger, h]
  · intro em; simp [ElementManager.withOp]

/-- Closed instantiation of C1 (amended): a bypassed `create` is a no-op. -/
theorem claim_C1_witness :
    ElementManager.create logApi {} ({ bypass := true } : ManagerState Nat) "div" =
      .ok ({ bypass := true }, {}) :=
  (claim_C1_bypass_noop_amended logApi {} { bypass := true } rfl).1 "div"

/-- C2 fails as stated: `set` on a non-bypassed manager with an unresolved
    element raises a null dereference (the unguarded
    `this.element.setAttribute`) instead of silently skipping. -/
theorem claim_C2_counterexample :
    ElementManager.set logApi {} ({} : ManagerState Nat) [("class", "x")] [] =
      .error .nullDeref := rfl

/-- C2 amended: with `element` unresolved and `bypass` false, only `remove`,
    `listen`, `trigger` (and the un-hide direction of `hide`) are guarded
    silent no-ops; `set` with any attribute or content entry, `hide()`, and
    `move`/`up`/`down`/`in`/`out` with a positive amount dereference the null
    element and throw; `on` is not an error but appends the JS-stringified
    null element to the resolved parent. -/
theorem claim_C2_null_element_amended {D E : Type} [DecidableEq E] (api : DomApi D E) (d : D)
    (st : ManagerState E) (hel : st.element = none) (hb : st.bypass = false) :
    ElementManager.remove api d st = .ok (st, d) ∧
    (∀ ev, ElementManager.listen api d st ev = .ok (st, d)) ∧
    (∀ ev, ElementManager.trigger api d st ev = .ok (st, d)) ∧
    ElementManager.hide api d st false = .ok (st, d) ∧
    (∀ k v attrs content, ElementManager.set api d st ((k, v) :: attrs) content =
      .error .nullDeref) ∧
    (∀ gk v content, ElementManager.set api d st [] ((gk, v) :: content) =
      .error .nullDeref) ∧
    ElementManager.hide api d st true = .error .nullDeref ∧
    (∀ amt, ElementManager.move api d st "up" (amt + 1) = .error .nullDeref) ∧
    (∀ amt, ElementManager.move api d st "down" (amt + 1) = .error .nullDeref) ∧
    (∀ amt, ElementManager.up api d st (amt + 1) = .error .nullDeref) ∧
    (∀ amt, ElementManager.down api d st (amt + 1) = .error .nullDeref) ∧
    (∀ amt, ElementManager.inOp api d st (amt + 1) = .error .nullDeref) ∧
    (∀ amt, ElementManager.out api d st (amt + 1) = .error .nullDeref) ∧
    (∀ e, ElementManager.onOp api d st (.elemRef e) = .ok (st, api.append d e none)) := by
  refine ⟨?_, ?_, ?_, ?_, ?_, ?_, ?_, ?_, ?_, ?_, ?_, ?_, ?_, ?_⟩
  · simp [ElementManager.remove, hb, hel]
  · intro ev; simp [ElementManager.listen, hb, hel]
  · intro ev; simp [ElementManager.trigger, hb, hel]
  · have hinc : jsIncludes "" ElementManager.hiddenStyle = false := by decide
    simp [ElementManager.hide, hb, hel, hinc]
  · intro k v attrs content
    simp [ElementManager.set, hb, hel, ElementManager.setAttrsLoop]
  · intro gk v content
    simp [ElementManager.set, hb, hel, ElementManager.setAttrsLoop, ElementManager.setContentLoop]
  · simp [ElementManager.hide, hb, hel, ElementManager.set, ElementManager.setAttrsLoop,
      ElementManager.hiddenStyle, jsIncludes, includesL]
  · intro amt
    simp [ElementManager.move, hb, hel, ElementManager.upDownLoop, Except.map]
  · intro amt
    simp [ElementManager.move, hb, hel, ElementManager.upDownLoop, Except.map]
  · intro amt
    simp [ElementManager.up, ElementManager.move, hb, hel, ElementManager.upDownLoop, Except.map]
  · intro amt
    simp [ElementManager.down, ElementManager.move, hb, hel, ElementManager.upDownLoop, Except.map]
  · intro amt
    simp [ElementManager.inOp, hb, hel, ElementManager.inLoop, Except.map]
  · intro amt
    simp [ElementManager.out, hb, hel, ElementManager.outLoop, Except.map]
  · intro e
    simp [ElementManager.onOp, hb, hel]

/-- Closed instantiation of C2 (amended): on a null element, `remove` is a
    silent no-op while `hide()` throws. -/
theorem claim_C2_witness :
    ElementManager.remove logApi {} ({} : ManagerState Nat) = .ok ({}, {}) ∧
    ElementManager.hide logApi {} ({} : ManagerState Nat) true = .error .nullDeref :=
  ⟨(claim_C2_null_element_amended logApi {} {} rfl rfl).1,
   (claim_C2_null_element_amended logApi {} {} rfl rfl).2.2.2.2.2.2.1⟩

/-- `isPrefixOf` on two cons cells compares heads then recurses. -/
theorem isPrefixOf_cons_cons (a x : Char) (p l : List Char) :
    (a :: p).isPrefixOf (x :: l) = (a == x && p.isPrefixOf l) := rfl

/-- Every list is a Boolean prefix of itself. -/
theorem isPrefixOf_self (l : List Char) : l.isPrefixOf l = true := by
  induction l with
  | nil => rfl
  | cons c t ih => rw [isPrefixOf_cons_cons, ih]; simp

/-- A string always `includes` its own suffix appended at the end. -/
theorem includesL_append_right (l pat : List Char) : includesL (l ++ pat) pat = true := by
  induction l with
  | nil =>
    rw [List.nil_append]
    unfold includesL
    rw [if_pos (isPrefixOf_self pat)]
  | cons c t ih =>
    rw [List.cons_append]
    unfold includesL
    split
    · rfl
    · exact ih

/-- If a character of `pat` does not occur in `l`, then `l` does not
    include `pat`. -/
theorem includesL_missing_char {l pat : List Char} {c : Char}
    (hc : c ∈ pat) (hl : c ∉ l) : includesL l pat = false := by
  induction l with
  | nil =>
    unfold includesL
    split
    · rename_i hp
      exact absurd ((List.isPrefixOf_iff_prefix.mp hp).subset hc) (by simp)
    · rfl
  | cons a t ih =>
    unfold includesL
    split
    · rename_i hp
      exact absurd ((List.isPrefixOf_iff_prefix.mp hp).subset hc) hl
    · exact ih (fun h => hl (List.mem_cons_of_mem _ h))

/-- Reading back the key that was just written. -/
theorem assocGet_set_same (m : List ((Nat × String) × String)) (k : Nat × String) (v : String) :
    assocGet (assocSet m k v) k = some v := by
  simp [assocGet, assocSet, List.find?]

/-- The inner hide marker (which begins `/*`) is never a prefix of a
    star-free prefix followed by the full marker (which begins `;/ *`):
    the character at offset 1 cannot be `*`. -/
theorem inner_marker_head_mismatch (c : Char) (t : List Char) (ht : ∀ x ∈ t, x ≠ '*') :
    ElementManager.hiddenStyleInner.data.isPrefixOf
      (c :: (t ++ ElementManager.hiddenStyle.data)) = false := by
  have hinner : ElementManager.hiddenStyleInner.data =
      '/' :: '*' :: (ElementManager.hiddenStyleInner.data.drop 2) := by decide
  cases t with
  | nil =>
    have hm : ElementManager.hiddenStyle.data =
        ';' :: (ElementManager.hiddenStyle.data.drop 1) := by decide
    rw [List.nil_append, hinner, hm, isPrefixOf_cons_cons, isPrefixOf_cons_cons]
    rw [show (('*' : Char) == ';') = false from by decide]
    simp
  | cons c2 t2 =>
    rw [List.cons_append, hinner, isPrefixOf_cons_cons, isPrefixOf_cons_cons]
    have h2 : (('*' : Char) == c2) = false :=
      beq_eq_false_iff_ne.mpr (fun h => (ht c2 (List.mem_cons_self _ _)) h.symm)
    rw [h2]
    simp

/-- `hide(false)`'s first-occurrence replacement of the inner marker inside a
    star-free style string followed by the full marker removes exactly the
    inner marker, leaving the marker's two delimiting semicolons behind. -/
theorem replaceFirst_append_marker : ∀ (l : List Char), (∀ x ∈ l, x ≠ '*') →
    replaceFirstL (l ++ ElementManager.hiddenStyle.data)
      ElementManager.hiddenStyleInner.data [] = l ++ [';', ';'] := by
  intro l
  induction l with
  | nil => intro _; decide
  | cons c t ih =>
    intro hl
    rw [List.cons_append]
    unfold replaceFirstL
    rw [if_neg (by simp [inner_marker_head_mismatch c t (fun x hx => hl x (List.mem_cons_of_mem _ hx))])]
    rw [ih (fun x hx => hl x (List.mem_cons_of_mem _ hx))]
    rfl

/-- Evaluation of `set` with a single attribute entry over the concrete
    document: the sigil of the given key decides append / prepend / overwrite
    against the stored attribute value (`"null"` being the JS coercion of an
    absent value in the prepend branch). -/
theorem logApi_set_one (d : LogDom) (st : ManagerState Nat)
    (hb : st.bypass = false) (hel : st.element = some 0) (gk v : String) :
    ElementManager.set logApi d st [(gk, v)] [] =
      .ok (st, { d with attrs := assocSet d.attrs (0, getKey gk)
                                   (if jsEndsWith gk "__$" then
                                      (assocGet d.attrs (0, getKey gk)).getD "" ++ v
                                    else if jsStartsWith gk "$__" then
                                      v ++ (match assocGet d.attrs (0, getKey gk) with
                                            | some o => o
                                            | none => "null")
                                    else v) }) := by
  rw [ElementManager.set, hb]
  simp only [Bool.false_eq_true, if_false]
  simp only [ElementManager.setAttrsLoop, ElementManager.setContentLoop, hel, logApi]
  split_ifs <;> rfl

/-- C8: on an element whose class attribute is `"a"`, `set({class__$: "x"})`
    yields `"ax"`, `set({$__class: "x"})` yields `"xa"`, and
    `set({class: "x"})` yields `"x"`. -/
theorem claim_C8_class_merge (d : LogDom) (st : ManagerState Nat)
    (hb : st.bypass = false) (hel : st.element = some 0)
    (hcls : assocGet d.attrs (0, "class") = some "a") :
    (ElementManager.set logApi d st [("class__$", "x")] []).toOption.map
        (fun p => assocGet p.2.attrs (0, "class")) = some (some "ax") ∧
    (ElementManager.set logApi d st [("$__class", "x")] []).toOption.map
        (fun p => assocGet p.2.attrs (0, "class")) = some (some "xa") ∧
    (ElementManager.set logApi d st [("class", "x")] []).toOption.map
        (fun p => assocGet p.2.attrs (0, "class")) = some (some "x") := by
  refine ⟨?_, ?_, ?_⟩
  · rw [logApi_set_one d st hb hel "class__$" "x",
        show getKey "class__$" = "class" from by decide,
        show jsEndsWith "class__$" "__$" = true from by decide]
    simp [hcls, Except.toOption, assocGet_set_same]
  · rw [logApi_set_one d st hb hel "$__class" "x",
        show getKey "$__class" = "class" from by decide,
        show jsEndsWith "$__class" "__$" = false from by decide,
        show jsStartsWith "$__class" "$__" = true from by decide]
    simp [hcls, Except.toOption, assocGet_set_same]
    decide
  · rw [logApi_set_one d st hb hel "class" "x",
        show getKey "class" = "class" from by decide,
        show jsEndsWith "class" "__$" = false from by decide,
        show jsStartsWith "class" "$__" = false from by decide]
    simp [hcls, Except.toOption, assocGet_set_same]

/-- Closed instantiation of C8 at the document where element 0 has
    class `"a"`. -/
theorem claim_C8_witness :
    (ElementManager.set logApi { attrs := [((0, "class"), "a")] }
        ({ element := some 0 } : ManagerState Nat) [("class__$", "x")] []).toOption.map
        (fun p => assocGet p.2.attrs (0, "class")) = some (some "ax") :=
  (claim_C8_class_merge { attrs := [((0, "class"), "a")] } { element := some 0 }
    rfl rfl rfl).1

/-- C4 (code bug): `set({$__class: "x"})` on an element with no class
    attribute stores `"xnull"`, not `"x"` — the source's `(nu + old ?? "")`
    parses as `(nu + old) ?? ""`, so the absent (`null`) old value is coerced
    into the string `"null"` by JS `+` and the dead `?? ""` never applies. -/
theorem claim_C4_prepend_null_eval :
    (ElementManager.set logApi {} ({ element := some 0 } : ManagerState Nat)
        [("$__class", "x")] []).toOption.map (fun p => assocGet p.2.attrs (0, "class")) =
      some (some "xnull") ∧ ("xnull" : String) ≠ "x" :=
  ⟨rfl, by decide⟩

/-- C3 fails as stated on the round-trip half: starting from style `""`,
    `hide()` then `hide(false)` leaves `";;"`, not the original `""` — the
    removal regex lacks the marker's two delimiting semicolons. -/
theorem claim_C3_counterexample :
    ((ElementManager.hide logApi { attrs := [((0, "style"), "")] }
        ({ element := some 0 } : ManagerState Nat) true).bind
      (fun p => ElementManager.hide logApi p.2 p.1 false)).toOption.map
        (fun p => assocGet p.2.attrs (0, "style")) = some (some ";;") ∧
    (";;" : String) ≠ "" :=
  ⟨rfl, by decide⟩

/-- Evaluation of `hide` over the concrete document once the current style
    string is known: the branch taken depends only on `hidden` and on whether
    the style already includes the marker. -/
theorem logApi_hide_eval (d : LogDom) (st : ManagerState Nat) (s : String)
    (hb : st.bypass = false) (hel : st.element = some 0)
    (hstyle : assocGet d.attrs (0, "style") = some s) (hidden : Bool) :
    ElementManager.hide logApi d st hidden =
      (if hidden && !(jsIncludes s ElementManager.hiddenStyle) then
        ElementManager.set logApi d st [("style__$", ElementManager.hiddenStyle)] []
      else if !hidden && jsIncludes s ElementManager.hiddenStyle then
        ElementManager.set logApi d st
          [("style", jsReplaceFirst s ElementManager.hiddenStyleInner "")] []
      else .ok (st, d)) := by
  rw [ElementManager.hide, hb]
  simp only [Bool.false_eq_true, if_false, hel]
  rw [show logApi.getAttribute d 0 "style" = some s from hstyle]
  simp only [Option.getD_some]

/-- C3 amended: `hide()` is idempotent as claimed, but the `hide()` then
    `hide(false)` round-trip does not restore the original style string `s`:
    it yields `s ++ ";;"` — the interior of the marker is removed while its
    two delimiting semicolons remain (shown for every `s` free of `'*'`, which
    in particular cannot contain the marker). -/
theorem claim_C3_hide_amended (d : LogDom) (st : ManagerState Nat) (s : String)
    (hb : st.bypass = false) (hel : st.element = some 0)
    (hstyle : assocGet d.attrs (0, "style") = some s) :
    (∀ r, ElementManager.hide logApi d st true = .ok r →
      ElementManager.hide logApi r.2 r.1 true = .ok r) ∧
    ((∀ x ∈ s.data, x ≠ '*') →
      ((ElementManager.hide logApi d st true).bind
          (fun p => ElementManager.hide logApi p.2 p.1 false)).toOption.map
        (fun p => assocGet p.2.attrs (0, "style")) = some (some (s ++ ";;"))) := by
  have happend : ElementManager.set logApi d st [("style__$", ElementManager.hiddenStyle)] [] =
      .ok (st, { d with attrs := assocSet d.attrs (0, "style") (s ++ ElementManager.hiddenStyle) }) := by
    rw [logApi_set_one d st hb hel "style__$" ElementManager.hiddenStyle,
        show getKey "style__$" = "style" from by decide,
        show jsEndsWith "style__$" "__$" = true from by decide]
    simp [hstyle]
  have hget1 : assocGet ({ d with attrs := assocSet d.attrs (0, "style") (s ++ ElementManager.hiddenStyle) } : LogDom).attrs (0, "style") = some (s ++ ElementManager.hiddenStyle) :=
    assocGet_set_same _ _ _
  have hq1 : jsIncludes (s ++ ElementManager.hiddenStyle) ElementManager.hiddenStyle = true := by
    unfold jsIncludes
    rw [String.data_append]
    exact includesL_append_right _ _
  constructor
  · intro r hr
    by_cases hq : jsIncludes s ElementManager.hiddenStyle = true
    · have h1 : ElementManager.hide logApi d st true = .ok (st, d) := by
        rw [logApi_hide_eval d st s hb hel hstyle true, hq]
        simp
      rw [h1] at hr
      cases hr
      exact h1
    · have hqf : jsIncludes s ElementManager.hiddenStyle = false := by
        cases hx : jsIncludes s ElementManager.hiddenStyle
        · rfl
        · exact absurd hx hq
      have h1 : ElementManager.hide logApi d st true = .ok (st, { d with attrs := assocSet d.attrs (0, "style") (s ++ ElementManager.hiddenStyle) }) := by
        rw [logApi_hide_eval d st s hb hel hstyle true, hqf]
        simpa using happend
      rw [h1] at hr
      cases hr
      have h2 : ElementManager.hide logApi ({ d with attrs := assocSet d.attrs (0, "style") (s ++ ElementManager.hiddenStyle) } : LogDom) st true = .ok (st, { d with attrs := assocSet d.attrs (0, "style") (s ++ ElementManager.hiddenStyle) }) := by
        rw [logApi_hide_eval _ st _ hb hel hget1 true, hq1]
        simp
      exact h2
  · intro hstar
    have hstarL : '*' ∉ s.data := fun h => hstar '*' h rfl
    have hqf : jsIncludes s ElementManager.hiddenStyle = false := by
      unfold jsIncludes
      exact includesL_missing_char (show '*' ∈ ElementManager.hiddenStyle.data from by decide) hstarL
    have h1 : ElementManager.hide logApi d st true = .ok (st, { d with attrs := assocSet d.attrs (0, "style") (s ++ ElementManager.hiddenStyle) }) := by
      rw [logApi_hide_eval d st s hb hel hstyle true, hqf]
      simpa using happend
    have hrep : jsReplaceFirst (s ++ ElementManager.hiddenStyle) ElementManager.hiddenStyleInner "" = s ++ ";;" := by
      apply String.ext
      show replaceFirstL (s ++ ElementManager.hiddenStyle).data ElementManager.hiddenStyleInner.data (String.data "") = _
      rw [String.data_append, show String.data "" = [] from rfl,
          replaceFirst_append_marker s.data hstar, String.data_append,
          show (";;" : String).data = [';', ';'] from by decide]
    have h2 : ElementManager.hide logApi ({ d with attrs := assocSet d.attrs (0, "style") (s ++ ElementManager.hiddenStyle) } : LogDom) st false = ElementManager.set logApi ({ d with attrs := assocSet d.attrs (0, "style") (s ++ ElementManager.hiddenStyle) } : LogDom) st [("style", s ++ ";;")] [] := by
      rw [logApi_hide_eval _ st _ hb hel hget1 false, hq1, hrep]
      simp
    rw [h1]
    show ((ElementManager.hide logApi _ st false).toOption.map _) = _
    rw [h2, logApi_set_one _ st hb hel "style" (s ++ ";;"),
        show getKey "style" = "style" from by decide,
        show jsEndsWith "style" "__$" = false from by decide,
        show jsStartsWith "style" "$__" = false from by decide]
    simp [Except.toOption, assocGet_set_same]

/-- Closed instantiation of C3 (amended) at initial style `"abc"`: the
    round-trip yields `"abc;;"`. -/
theorem claim_C3_witness :
    ((ElementManager.hide logApi { attrs := [((0, "style"), "abc")] }
        ({ element := some 0 } : ManagerState Nat) true).bind
      (fun p => ElementManager.hide logApi p.2 p.1 false)).toOption.map
        (fun p => assocGet p.2.attrs (0, "style")) = some (some ("abc" ++ ";;")) :=
  (claim_C3_hide_amended { attrs := [((0, "style"), "abc")] } { element := some 0 } "abc"
    rfl rfl rfl).2 (by decide)

/-- C9: `find` sets `found` to true exactly on a successful match and
    otherwise leaves it; every other operation either returns its own builder
    state with `found` untouched (most return it entirely unchanged) or, for
    `with`, hands over the other manager's state verbatim; consequently after
    one successful `find`, a later `find` that matches nothing leaves `found`
    true with `element` null, and a subsequent `or()` still enters bypass. -/
theorem claim_C9_found_monotone {D E : Type} [DecidableEq E] (api : DomApi D E) (d : D)
    (st : ManagerState E) :
    (∀ sel, ElementManager.find api d st sel =
      .ok ({ st with element := api.querySelector d sel,
                     found := (if (api.querySelector d sel).isSome then true else st.found) }, d)) ∧
    (∀ tag r, ElementManager.create api d st tag = .ok r → r.1.found = st.found) ∧
    (∀ sel r, ElementManager.replace api d st sel = .ok r → r.1.found = st.found) ∧
    (∀ e r, ElementManager.use d st e = .ok r → r.1.found = st.found) ∧
    (∀ r, ElementManager.or d st = .ok r → r.1.found = st.found) ∧
    (∀ r, ElementManager.thenOp d st = .ok r → r.1.found = st.found) ∧
    (∀ p r, ElementManager.onOp api d st p = .ok r → r.1 = st) ∧
    (∀ attrs content r, ElementManager.set api d st attrs content = .ok r → r.1 = st) ∧
    (∀ dir amt r, ElementManager.move api d st dir amt = .ok r → r.1 = st) ∧
    (∀ amt r, ElementManager.up api d st amt = .ok r → r.1 = st) ∧
    (∀ amt r, ElementManager.down api d st amt = .ok r → r.1 = st) ∧
    (∀ amt r, ElementManager.inOp api d st amt = .ok r → r.1 = st) ∧
    (∀ amt r, ElementManager.out api d st amt = .ok r → r.1 = st) ∧
    (∀ hidden r, ElementManager.hide api d st hidden = .ok r → r.1 = st) ∧
    (∀ r, ElementManager.remove api d st = .ok r → r.1 = st) ∧
    (∀ ev r, ElementManager.listen api d st ev = .ok r → r.1 = st) ∧
    (∀ ev r, ElementManager.trigger api d st ev = .ok r → r.1 = st) ∧
    (∀ em r, ElementManager.withOp api d st em = .ok r → r.1 = em) ∧
    (∀ (e : E) (sel1 sel2 : String), api.querySelector d sel1 = some e →
      api.querySelector d sel2 = none →
      ElementManager.find api d {} sel1 = .ok ({ element := some e, found := true }, d) ∧
      ElementManager.find api d { element := some e, found := true } sel2 =
        .ok ({ element := none, found := true }, d) ∧
      ElementManager.or d ({ element := none, found := true } : ManagerState E) =
        .ok ({ element := none, found := true, bypass := true }, d)) := by
  have hset : ∀ attrs content r, ElementManager.set api d st attrs content = .ok r →
      r.1 = st := by
    intro attrs content r h
    unfold ElementManager.set at h
    split at h
    · cases h; rfl
    · split at h
      · exact Except.noConfusion h
      · split at h
        · exact Except.noConfusion h
        · cases h; rfl
  have hin : ∀ amt r, ElementManager.inOp api d st amt = .ok r → r.1 = st := by
    intro amt r h
    unfold ElementManager.inOp at h
    split at h
    · cases h; rfl
    · cases hx : ElementManager.inLoop api st.element amt d with
      | error e => rw [hx] at h; exact Except.noConfusion h
      | ok d2 =>
        rw [hx] at h
        simp only [Except.map, Except.ok.injEq] at h
        subst h
        rfl
  have hout : ∀ amt r, ElementManager.out api d st amt = .ok r → r.1 = st := by
    intro amt r h
    unfold ElementManager.out at h
    split at h
    · cases h; rfl
    · cases hx : ElementManager.outLoop api st.element amt d with
      | error e => rw [hx] at h; exact Except.noConfusion h
      | ok d2 =>
        rw [hx] at h
        simp only [Except.map, Except.ok.injEq] at h
        subst h
        rfl
  have hmove : ∀ dir amt r, ElementManager.move api d st dir amt = .ok r → r.1 = st := by
    intro dir amt r h
    unfold ElementManager.move at h
    split at h
    · cases h; rfl
    · split at h
      · exact hin amt r h
      · split at h
        · exact hout amt r h
        · split at h
          · cases hx : ElementManager.upDownLoop api (dir = "up") st.element amt d with
            | error e => rw [hx] at h; exact Except.noConfusion h
            | ok d2 =>
              rw [hx] at h
              simp only [Except.map, Except.ok.injEq] at h
              subst h
              rfl
          · split at h
            · cases h; rfl
            · cases h; rfl
  have hhide : ∀ hidden r, ElementManager.hide api d st hidden = .ok r → r.1 = st := by
    intro hidden r h
    simp only [ElementManager.hide] at h
    split at h
    · cases h; rfl
    · split at h
      · exact hset _ _ r h
      · split at h
        · exact hset _ _ r h
        · cases h; rfl
  refine ⟨fun sel => rfl, ?_, fun sel r h => by cases h; rfl, fun e r h => by cases h; rfl,
    fun r h => by cases h; rfl, fun r h => by cases h; rfl, ?_, hset, hmove,
    fun amt => hmove "up" amt, fun amt => hmove "down" amt, hin, hout, hhide, ?_, ?_, ?_,
    fun em r h => by cases h; rfl, ?_⟩
  · intro tag r h
    unfold ElementManager.create at h
    split at h
    · cases h; rfl
    · cases h; rfl
  · intro p r h
    simp only [ElementManager.onOp] at h
    split at h
    · cases h; rfl
    · split at h
      · cases h; rfl
      · split at h
        · cases h; rfl
        · cases h; rfl
  · intro r h
    unfold ElementManager.remove at h
    split at h
    · cases h; rfl
    · split at h
      · cases h; rfl
      · cases h; rfl
  · intro ev r h
    unfold ElementManager.listen at h
    split at h
    · cases h; rfl
    · split at h
      · cases h; rfl
      · cases h; rfl
  · intro ev r h
    unfold ElementManager.trigger at h
    split at h
    · cases h; rfl
    · split at h
      · cases h; rfl
      · cases h; rfl
  · intro e sel1 sel2 hq1 hq2
    refine ⟨?_, ?_, rfl⟩
    · simp [ElementManager.find, hq1]
    · simp [ElementManager.find, hq2]

/-- Closed instantiation of C9 over `{"a" ↦ 3}`: a successful `find("a")`
    followed by a failing `find("b")` keeps `found` true with a null element,
    and `or()` then enters bypass. -/
theorem claim_C9_witness :
    ElementManager.find logApi { sels := [("a", 3)] } {} "a" =
      .ok ({ element := some 3, found := true }, { sels := [("a", 3)] }) ∧
    ElementManager.find logApi { sels := [("a", 3)] } { element := some 3, found := true } "b" =
      .ok ({ element := none, found := true }, { sels := [("a", 3)] }) ∧
    ElementManager.or ({ sels := [("a", 3)] } : LogDom)
        ({ element := none, found := true } : ManagerState Nat) =
      .ok ({ element := none, found := true, bypass := true }, { sels := [("a", 3)] }) :=
  (claim_C9_found_monotone logApi { sels := [("a", 3)] } {}).2.2.2.2.2.2.2.2.2.2.2.2.2.2.2.2.2.2
    3 "a" "b" rfl rfl
